import Mathlib

/-!
Verification development for the cs.money price-monitoring parser
(`src/price_monitoring/parsers/csmoney/parser/parser.py`), shallowly embedded.

Conventions of the embedding:
* JSON values (what Python's `json.loads` yields) are the inductive `Json`;
  Python dicts are association lists with first-hit lookup (JSON objects have
  unique keys after decoding, so the difference never shows).
* Python exceptions that this code can raise are the inductive `PyError`;
  fallible code returns `Except PyError _`.
* Python `float` arithmetic is modelled as exact rational arithmetic (`Rat`):
  the code only ever divides a millisecond integer by 1000.
* `datetime.fromtimestamp(sec, UTC)` is represented by its seconds since the
  Unix epoch (`PyDatetime`).
* Strings handed to the Cloudflare classifier are modelled as their character
  lists, so that substring search and per-character lowercasing are
  transparent to proofs; Python's `str.lower` is per-character on the ASCII
  text involved.
-/

namespace Csmoney

/-- A JSON value as Python's `json.loads` produces it: `None`, `bool`, `int`,
`float`, `str`, `list`, `dict`. -/
inductive Json where
  | null
  | bool (b : Bool)
  | int (n : Int)
  | float (q : Rat)
  | str (s : String)
  | arr (elements : List Json)
  | obj (fields : List (String × Json))

/-- The Python exception classes the parser's code can raise. -/
inductive PyError where
  | keyError
  | valueError
  | typeError
  | attributeError
  deriving DecidableEq, Repr

/-- Python truthiness (`bool(v)`) of a JSON-decoded value. -/
def pyTruthy : Json → Bool
  | .null => false
  | .bool b => b
  | .int n => n != 0
  | .float q => q != 0
  | .str s => !s.isEmpty
  | .arr xs => !xs.isEmpty
  | .obj fs => !fs.isEmpty

/-- `d[k]` for a string key `k`: mapping lookup, `KeyError` when the key is
absent; subscripting a non-mapping value with a string key raises
`TypeError`. -/
def pyGetItem (j : Json) (k : String) : Except PyError Json :=
  match j with
  | .obj fields =>
    match fields.lookup k with
    | some v => .ok v
    | none => .error .keyError
  | _ => .error .typeError

/-- `d.get(k, None)`: `none` both when the key is absent and when it maps to
JSON null — Python returns `None` in either case, and nothing downstream can
tell the two apart. Calling `.get` on a non-mapping raises
`AttributeError`. -/
def pyGet (j : Json) (k : String) : Except PyError (Option Json) :=
  match j with
  | .obj fields =>
    match fields.lookup k with
    | some .null => .ok none
    | some v => .ok (some v)
    | none => .ok none
  | _ => .error .attributeError

/-- Whether one character run starts with another (`hasPrefixSeq needle hay`). -/
def hasPrefixSeq : List Char → List Char → Bool
  | [], _ => true
  | _ :: _, [] => false
  | n :: ns, h :: hs => n == h && hasPrefixSeq ns hs

/-- Python's `needle in hay` for strings, over character lists: some contiguous
run of `hay` equals `needle`. -/
def hasSubSeq (needle : List Char) : List Char → Bool
  | [] => needle.isEmpty
  | h :: hs => hasPrefixSeq needle (h :: hs) || hasSubSeq needle hs

/-- Python's `k in d` for a string `k`: key membership on a dict, substring
search on a str, element membership on a list (`==` against each element —
only another equal str can match a str), `TypeError` on values that are not
iterable (`None`, numbers, bools). -/
def pyContainsKey (j : Json) (k : String) : Except PyError Bool :=
  match j with
  | .obj fields => .ok (fields.lookup k).isSome
  | .str s => .ok (hasSubSeq k.data s.data)
  | .arr xs =>
    .ok (xs.any fun x => match x with | .str t => t == k | _ => false)
  | _ => .error .typeError

/-- Python `str()` as `_create_items` applies it to asset identifiers.
Faithful for ints, bools, `None` and strings — the shapes asset identifiers
take in this data (the repository's tests use ints). The renderings of floats
and containers are simplified placeholders (Python's shortest-float repr is
not reproduced); no claim depends on them. -/
def pyStr : Json → String
  | .null => "None"
  | .bool true => "True"
  | .bool false => "False"
  | .int n => toString n
  | .float q => toString q
  | .str s => s
  | .arr _ => "(list)"
  | .obj _ => "(dict)"

/-- `datetime.fromtimestamp(sec, UTC)`, represented by its seconds since the
Unix epoch, kept exact as a rational. -/
structure PyDatetime where
  secondsSinceEpoch : Rat
  deriving DecidableEq, Repr

/-- `_csmoney_unix_to_datetime` (parser.py lines 49–52). The guard `if unix:`
is Python truthiness, so both `None` and `0` fall through to `None`. On a
truthy value, `unix / 1000` succeeds for numbers (`True` counts as the int 1)
and raises `TypeError` otherwise. The argument is the raw value the call
sites pass (`int | None` by annotation). -/
def csmoney_unix_to_datetime (unix : Option Json) : Except PyError (Option PyDatetime) :=
  match unix with
  | none => .ok none
  | some v =>
    if pyTruthy v then
      match v with
      | .int n => .ok (some ⟨(n : Rat) / 1000⟩)
      | .float q => .ok (some ⟨q / 1000⟩)
      | .bool _ => .ok (some ⟨(1 : Rat) / 1000⟩)
      | _ => .error .typeError
    else .ok none

/-- Modelled from the spec: the closed category enumeration
(`CsmoneyItemCategory`, in `price_monitoring/models/csmoney.py`, is not under
`src/`). The spec fixes only that it is "a fixed small set of integer-to-label
mappings" and that an unrecognized code is a hard error, so the decoder is
parametrised by the closed list of valid integer codes and a decoded category
is kept as its validated code. Python's `Enum` lookup is by `==` on the value,
so an int-valued float (or a bool, which is an int) matching a member code
decodes too; every non-matching value raises `ValueError` (`Enum` catches the
`TypeError` of unhashable values and falls back to scanning members). -/
def categoryDecode (validCodes : List Int) : Json → Except PyError Int
  | .int n => if n ∈ validCodes then .ok n else .error .valueError
  | .float q =>
    if q.den = 1 ∧ q.num ∈ validCodes then .ok q.num else .error .valueError
  | .bool b =>
    if (if b then (1 : Int) else 0) ∈ validCodes then .ok (if b then 1 else 0)
    else .error .valueError
  | _ => .error .valueError

/-- Modelled from the spec: the DomainItem (`CsmoneyItem` of
`price_monitoring/models/csmoney.py`, not under `src/`). Field names follow
the keyword arguments at the `_create_items` construction sites; the category
is its validated integer code (see `categoryDecode`); `price`, `name_id` and
the wear value `float_` are stored exactly as the source record provides
them. -/
structure CsmoneyItem where
  name : String
  price : Json
  asset_id : String
  name_id : Json
  type_ : Int
  float_ : Option Json
  unlock_timestamp : Option PyDatetime
  overpay_float : Option Json

/-- Modelled from the spec: the ItemBatch (`CsmoneyItemPack` of
`price_monitoring/models/csmoney.py`, not under `src/`): an ordered
accumulation of domain items. -/
structure CsmoneyItemPack where
  items : List CsmoneyItem

/-- parser.py lines 86–87: `overpay = json_item.get("overpay", None);
overpay_float = overpay.get("float", None) if overpay else None`. -/
def overpayFloat (json_item : Json) : Except PyError (Option Json) :=
  match pyGet json_item "overpay" with
  | .error e => .error e
  | .ok none => .ok none
  | .ok (some ov) => if pyTruthy ov then pyGet ov "float" else .ok none

/-- parser.py line 96: `_csmoney_unix_to_datetime(json_item.get("tradeLock",
None))` — the parent record reads its lock with `.get`, so an absent key is
`None`, never an error. -/
def unlockTimestamp (json_item : Json) : Except PyError (Option PyDatetime) :=
  match pyGet json_item "tradeLock" with
  | .error e => .error e
  | .ok u => csmoney_unix_to_datetime u

/-- The Python for-loop body aborts the whole call at the first exception:
`mapExcept f` applies `f` left to right and stops at the first error. -/
def mapExcept (f : α → Except PyError β) : List α → Except PyError (List β)
  | [] => .ok []
  | x :: xs =>
    match f x with
    | .error e => .error e
    | .ok y =>
      match mapExcept f xs with
      | .error e => .error e
      | .ok ys => .ok (y :: ys)

/-- The body of the `stackItems` loop (parser.py lines 100–113): builds one
sibling item from its own sub-record — `stack_item["id"]` and
`stack_item["tradeLock"]` are mandatory subscripts (KeyError when absent),
`stack_item.get("float", None)` is optional — while `name`, `price`,
`name_id` and the category come from the parent (the source re-reads those
keys from the unchanged parent dict, so the values are the ones already
computed). `overpay_float` is always `None` for a sibling. The keyword
arguments evaluate in source order: `id`, then `float`, then `tradeLock`. -/
def create_stack_item (name : String) (price name_id : Json) (type_code : Int)
    (stack_item : Json) : Except PyError CsmoneyItem :=
  match pyGetItem stack_item "id" with
  | .error e => .error e
  | .ok sid =>
    match pyGet stack_item "float" with
    | .error e => .error e
    | .ok sfloat =>
      match pyGetItem stack_item "tradeLock" with
      | .error e => .error e
      | .ok slock =>
        match csmoney_unix_to_datetime (some slock) with
        | .error e => .error e
        | .ok sunlock =>
          .ok { name := name, price := price, asset_id := pyStr sid,
                name_id := name_id, type_ := type_code, float_ := sfloat,
                unlock_timestamp := sunlock, overpay_float := none }

/-- `_create_items` (parser.py lines 82–115), over the JSON record. `patch`
stands for the external name normalizer `patch_market_name`
(`_name_patcher.py` is not under `src/`; the spec's Name Normalizer is a pure
`name -> name` collaborator, kept as a parameter — it only ever receives a
str, any other `fullName` value would raise a `TypeError` inside it).
`validCodes` parametrises the category enumeration, see `categoryDecode`.
The reads happen in Python's evaluation order: the `fullName` membership
test, `json_item["fullName"]`, the overpay pair, then the head item's keyword
arguments (`price`, `assetId`, `nameId`, `type`, `float`, `tradeLock`), then
the three stack-key membership tests, then the sibling loop. Iterating a
non-list `stackItems` follows Python: an empty str or dict iterates zero
times, a non-empty one yields strings whose `["id"]` subscript raises
`TypeError`, and non-iterables raise `TypeError` outright. -/
def create_items (patch : String → String) (validCodes : List Int)
    (json_item : Json) : Except PyError (List CsmoneyItem) :=
  match pyContainsKey json_item "fullName" with
  | .error e => .error e
  | .ok false => .ok []
  | .ok true =>
    match pyGetItem json_item "fullName" with
    | .error e => .error e
    | .ok (.str raw_name) =>
      let name := patch raw_name
      match overpayFloat json_item with
      | .error e => .error e
      | .ok overpay_float =>
        match pyGetItem json_item "price" with
        | .error e => .error e
        | .ok price =>
          match pyGetItem json_item "assetId" with
          | .error e => .error e
          | .ok asset_val =>
            match pyGetItem json_item "nameId" with
            | .error e => .error e
            | .ok name_id =>
              match pyGetItem json_item "type" with
              | .error e => .error e
              | .ok type_val =>
                match categoryDecode validCodes type_val with
                | .error e => .error e
                | .ok type_code =>
                  match pyGet json_item "float" with
                  | .error e => .error e
                  | .ok float_val =>
                    match unlockTimestamp json_item with
                    | .error e => .error e
                    | .ok unlock =>
                      let head : CsmoneyItem :=
                        { name := name, price := price,
                          asset_id := pyStr asset_val, name_id := name_id,
                          type_ := type_code, float_ := float_val,
                          unlock_timestamp := unlock,
                          overpay_float := overpay_float }
                      match pyContainsKey json_item "stackSize" with
                      | .error e => .error e
                      | .ok false => .ok [head]
                      | .ok true =>
                        match pyContainsKey json_item "stackId" with
                        | .error e => .error e
                        | .ok false => .ok [head]
                        | .ok true =>
                          match pyContainsKey json_item "stackItems" with
                          | .error e => .error e
                          | .ok false => .ok [head]
                          | .ok true =>
                            match pyGetItem json_item "stackItems" with
                            | .error e => .error e
                            | .ok (.arr stack_items) =>
                              match mapExcept
                                  (create_stack_item name price name_id type_code)
                                  stack_items with
                              | .error e => .error e
                              | .ok siblings => .ok (head :: siblings)
                            | .ok (.str s) =>
                              if s.isEmpty then .ok [head] else .error .typeError
                            | .ok (.obj fs) =>
                              if fs.isEmpty then .ok [head] else .error .typeError
                            | .ok _ => .error .typeError
    | .ok _ => .error .typeError

/-- `_process_items` (parser.py lines 129–135): builds one `CsmoneyItemPack`
from the raw records in order (every item of every record's list, appended in
order) and hands it to the sink; an exception from `_create_items` aborts the
call before the `put`. The `put` itself is the sink handoff, represented by
the returned pack. -/
def process_items (patch : String → String) (validCodes : List Int)
    (items_data : List Json) : Except PyError CsmoneyItemPack :=
  match mapExcept (create_items patch validCodes) items_data with
  | .error e => .error e
  | .ok itemLists => .ok ⟨itemLists.flatten⟩

/-- The try-block of `_extract_skins` (parser.py lines 63–67): four mandatory
subscripts along the fixed path props → pageProps → botInitData →
skinsInfo. -/
def skins_path (data : Json) : Except PyError Json :=
  match pyGetItem data "props" with
  | .error e => .error e
  | .ok props =>
    match pyGetItem props "pageProps" with
    | .error e => .error e
    | .ok page_props =>
      match pyGetItem page_props "botInitData" with
      | .error e => .error e
      | .ok bot_init => pyGetItem bot_init "skinsInfo"

/-- `_extract_skins` (parser.py lines 62–74): `except KeyError` around the
path walk re-raises as `ValueError` (the uniform extraction failure); any
other exception (a non-dict node on the path) is not caught. Then
`skins_info.get("skins")`; a value that is not a list — including an absent
key — yields the empty list rather than an error. -/
def extract_skins (data : Json) : Except PyError (List Json) :=
  match skins_path data with
  | .error .keyError => .error .valueError
  | .error e => .error e
  | .ok skins_info =>
    match pyGet skins_info "skins" with
    | .error e => .error e
    | .ok (some (.arr xs)) => .ok xs
    | .ok _ => .ok []

/-- `_CLOUDFLARE_KEYWORDS` (parser.py lines 39–44), as character lists, in
source order. -/
def cloudflareKeywords : List (List Char) :=
  ["just a moment".data, "cf-mitigated".data,
   "cf-browser-verification".data, "cf-chl".data]

/-- `_is_cloudflare_challenge` (parser.py lines 77–79): lowercase the whole
text once, then `any()` of a substring test per fixed marker. -/
def is_cloudflare_challenge (html : List Char) : Bool :=
  let lowered := html.map Char.toLower
  cloudflareKeywords.any fun keyword => hasSubSeq keyword lowered

/-- One fetch attempt's observable outcome at the orchestrator boundary.
`noContent`: `_request` returned `None` (a transport exception swallowed by
`catch_aiohttp`, or a Cloudflare challenge page) or an empty body — either
way `if not html:` takes the failure branch. `page nd`: a non-empty body for
which `_extract_next_data` yields `nd` — `Except.error ()` standing for the
`ValueError` the loop catches (marker not found, or `json.loads` failure,
a `ValueError` subclass); the regex/JSON decoding of the raw HTML itself is
not re-modelled at this boundary. -/
inductive FetchResult where
  | noContent
  | page (nextData : Except Unit Json)

/-- How one invocation of `CsmoneyParserImpl.parse` ends. `success`: the loop
broke after the sink handoff. `maxAttemptsReached`: the `MaxAttemptsReachedError`
raised after the loop (modelled from the spec: `abstract_parser.py` is not
under `src/`; the spec calls it the terminal exhaustion signal, a distinct
error carrying no payload). `pyError e`: an exception the loop does not catch
escaped `parse`. `traceEnded`: the environment supplied fewer fetch results
than the loop asked for (the real loop would still be awaiting I/O). -/
inductive ParseOutcome where
  | success
  | maxAttemptsReached
  | pyError (e : PyError)
  | traceEnded
  deriving DecidableEq, Repr

/-- What one invocation of `parse` did: `puts` are the packs handed to
`result_queue.put`, in order; `attempts` counts the loop iterations that
performed a fetch. -/
structure ParseRun where
  puts : List CsmoneyItemPack
  attempts : Nat
  outcome : ParseOutcome

/-- The while-loop of `CsmoneyParserImpl.parse` (parser.py lines 148–168)
together with the post-loop raise (lines 170–171): the loop runs while
`failed_attempts <= max_attempts` (Python ints, re-checked before every
iteration); a fetch with no content or a caught `ValueError` from
`_extract_next_data`/`_extract_skins` increments `failed_attempts` and loops;
a successful extraction runs `_process_items` — whose exceptions, and any
non-`ValueError` from the extractors, are not caught and escape — puts once
and breaks. The loop body only breaks while `failed_attempts <= max_attempts`
holds, so the post-loop `if failed_attempts > max_attempts: raise` fires
exactly on the condition-false exit, folded here into the leaf results. -/
def parseLoop (patch : String → String) (validCodes : List Int)
    (max_attempts : Int) : Int → List FetchResult → ParseRun
  | failed_attempts, [] =>
    if failed_attempts ≤ max_attempts then ⟨[], 0, .traceEnded⟩
    else ⟨[], 0, .maxAttemptsReached⟩
  | failed_attempts, fetch :: rest =>
    if failed_attempts ≤ max_attempts then
      let step : ParseRun :=
        match fetch with
        | .noContent =>
          parseLoop patch validCodes max_attempts (failed_attempts + 1) rest
        | .page (.error _) =>
          parseLoop patch validCodes max_attempts (failed_attempts + 1) rest
        | .page (.ok nextData) =>
          match extract_skins nextData with
          | .error .valueError =>
            parseLoop patch validCodes max_attempts (failed_attempts + 1) rest
          | .error e => ⟨[], 0, .pyError e⟩
          | .ok skins_data =>
            match process_items patch validCodes skins_data with
            | .error e => ⟨[], 0, .pyError e⟩
            | .ok pack => ⟨[pack], 0, .success⟩
      ⟨step.puts, step.attempts + 1, step.outcome⟩
    else ⟨[], 0, .maxAttemptsReached⟩

/-- `CsmoneyParserImpl.parse` (parser.py lines 142–171): `failed_attempts`
starts at 0. -/
def parse (patch : String → String) (validCodes : List Int)
    (trace : List FetchResult) (max_attempts : Int) : ParseRun :=
  parseLoop patch validCodes max_attempts 0 trace

/-- Statement-side test data: the field values of one stack sub-record in the
shape this page delivers them — an integer `id`, an optional wear string, and
a `tradeLock` that is an integer or JSON null (`none` here). -/
structure StackFields where
  id : Int
  wear : Option String
  lock : Option Int

/-- The JSON sub-record carrying exactly the fields of `s`. -/
def stackFieldsJson (s : StackFields) : Json :=
  .obj ([("id", Json.int s.id)]
    ++ (match s.wear with | some w => [("float", Json.str w)] | none => [])
    ++ [("tradeLock", match s.lock with | some n => Json.int n | none => Json.null)])

/-- The sibling domain item the spec's invariant describes for one stack
sub-record: wear and lock from the sub-record itself, name, price, template
identifier and category shared from the parent, the asset identifier
stringified, and never an overpay metric. Written from the spec's words, for
comparison with what `create_items` computes (the lock conversion keeps the
code's reading that a zero or null lock means no timestamp). -/
def specSibling (name : String) (price name_id : Json) (type_code : Int)
    (s : StackFields) : CsmoneyItem :=
  { name := name, price := price, asset_id := toString s.id,
    name_id := name_id, type_ := type_code,
    float_ := s.wear.map Json.str,
    unlock_timestamp :=
      s.lock.bind fun n => if n = 0 then none else some ⟨(n : Rat) / 1000⟩,
    overpay_float := none }

/-- A well-formed flat raw record whose category code is `c` (concrete test
data for the category claims, shaped like the repository's test payloads). -/
def sampleRecord (c : Int) : Json :=
  .obj [("fullName", .str "AK-47 | Redline (Field-Tested)"),
        ("price", .float (1234 / 100)), ("assetId", .int 123),
        ("nameId", .int 456), ("type", .int c)]

/-- A page structure embedding `skins` at the fixed nested path. -/
def wrapSkins (skins : List Json) : Json :=
  .obj [("props", .obj [("pageProps", .obj [("botInitData",
    .obj [("skinsInfo", .obj [("skins", .arr skins)])])])])]

/-- A grouped raw record (all three stack keys present) of category `c` whose
single sibling sub-record has an `id` but no `tradeLock` key; the parent
itself has no `tradeLock` either. -/
def sampleStackRecordNoLock (c : Int) : Json :=
  .obj [("fullName", .str "M9 Bayonet | Doppler (Factory New)"),
        ("price", .float (115928 / 10)), ("assetId", .int 24899230485),
        ("nameId", .int 15840), ("type", .int c),
        ("stackSize", .int 2), ("stackId", .int 1),
        ("stackItems", .arr [.obj [("id", .int 24902572721)]])]

/-- The same record without its three stack keys (and still without a
`tradeLock`). -/
def sampleFlatRecordNoLock (c : Int) : Json :=
  .obj [("fullName", .str "M9 Bayonet | Doppler (Factory New)"),
        ("price", .float (115928 / 10)), ("assetId", .int 24899230485),
        ("nameId", .int 15840), ("type", .int c)]

/-- Once `failed_attempts` exceeds `max_attempts`, the loop condition is false
on entry and `MaxAttemptsReachedError` is raised, whatever fetches follow. -/
theorem parseLoop_exhausted (patch : String → String) (validCodes : List Int)
    (m fa : Int) (trace : List FetchResult) (h : ¬ fa ≤ m) :
    parseLoop patch validCodes m fa trace = ⟨[], 0, .maxAttemptsReached⟩ := by
  cases trace <;> simp [parseLoop, h]

/-- C8: a raw record lacking the display-name field `fullName` transforms to
the empty list — the record is silently dropped, not an error. -/
theorem csmoney_missing_name_dropped (patch : String → String)
    (validCodes : List Int) (fields : List (String × Json))
    (h : fields.lookup "fullName" = none) :
    create_items patch validCodes (.obj fields) = .ok [] := by
  simp [create_items, pyContainsKey, h]

/-- C8 witness: a concrete record with a price but no name yields no items. -/
theorem csmoney_missing_name_dropped_witness :
    create_items (fun s => s) [3] (.obj [("price", Json.int 5)]) = .ok [] :=
  csmoney_missing_name_dropped (fun s => s) [3] [("price", Json.int 5)] rfl

/-- C7 counterexample: at the present millisecond value `T = 0` the conversion
returns no timestamp (`if unix:` is falsy at 0), while the claim prescribes
the epoch time `0 / 1000` seconds. -/
theorem csmoney_unix_zero_cex :
    csmoney_unix_to_datetime (some (.int 0)) = .ok none ∧
      (some (PyDatetime.mk ((0 : Rat) / 1000)) ≠ (none : Option PyDatetime)) := by
  exact ⟨rfl, by simp⟩

/-- C7 amended: every nonzero millisecond-epoch integer `T` converts to the
absolute UTC time of `T / 1000` seconds since the epoch; an absent field — or
the falsy value 0 — yields no timestamp, never a default or epoch time. -/
theorem csmoney_unix_conversion_amended (T : Int) (h : T ≠ 0) :
    csmoney_unix_to_datetime (some (.int T)) = .ok (some ⟨(T : Rat) / 1000⟩) ∧
      csmoney_unix_to_datetime none = .ok none ∧
      (∀ fields : List (String × Json), fields.lookup "tradeLock" = none →
        unlockTimestamp (.obj fields) = .ok none) := by
  refine ⟨?_, rfl, ?_⟩
  · simp [csmoney_unix_to_datetime, pyTruthy, h]
  · intro fields hf
    simp [unlockTimestamp, pyGet, hf, csmoney_unix_to_datetime]

/-- C7 witness: the conversion at the concrete lock value the repository's
tests use. -/
theorem csmoney_unix_conversion_witness :
    csmoney_unix_to_datetime (some (.int 1645009200000))
      = .ok (some ⟨(1645009200000 : Rat) / 1000⟩) :=
  (csmoney_unix_conversion_amended 1645009200000 (by norm_num)).1

/-- C3: with `max_attempts = 0` and every fetch yielding no content, the loop
performs exactly one attempt, raises the exhaustion signal, and the sink is
never invoked. -/
theorem csmoney_zero_max_attempts (patch : String → String)
    (validCodes : List Int) (trace : List FetchResult)
    (hne : trace ≠ []) (hall : ∀ f ∈ trace, f = .noContent) :
    parse patch validCodes trace 0 = ⟨[], 1, .maxAttemptsReached⟩ := by
  cases trace with
  | nil => exact absurd rfl hne
  | cons f rest =>
    have hf : f = .noContent := hall f (List.mem_cons_self _ _)
    subst hf
    have hrest : parseLoop patch validCodes 0 1 rest = ⟨[], 0, .maxAttemptsReached⟩ :=
      parseLoop_exhausted patch validCodes 0 1 rest (by norm_num)
    simp [parse, parseLoop, hrest]

/-- C3 witness: one failing fetch at the concrete zero bound. -/
theorem csmoney_zero_max_attempts_witness :
    parse (fun s => s) [3] [.noContent] 0 = ⟨[], 1, .maxAttemptsReached⟩ :=
  csmoney_zero_max_attempts (fun s => s) [3] [.noContent] (by simp)
    (by intro f hf; simpa using hf)

/-- Loop invariant: the loop puts at most one pack, puts exactly one exactly
when it ends in success, and puts none otherwise. -/
theorem parseLoop_sink (patch : String → String) (validCodes : List Int)
    (m : Int) (trace : List FetchResult) : ∀ fa : Int,
    ((parseLoop patch validCodes m fa trace).outcome = .success ↔
      (parseLoop patch validCodes m fa trace).puts.length = 1) ∧
    (parseLoop patch validCodes m fa trace).puts.length ≤ 1 ∧
    ((parseLoop patch validCodes m fa trace).outcome ≠ .success →
      (parseLoop patch validCodes m fa trace).puts = []) := by
  induction trace with
  | nil =>
    intro fa
    by_cases h : fa ≤ m <;> simp [parseLoop, h]
  | cons fetch rest ih =>
    intro fa
    by_cases h : fa ≤ m
    · cases fetch with
      | noContent => simpa [parseLoop, h] using ih (fa + 1)
      | page nd =>
        cases nd with
        | error u => simpa [parseLoop, h] using ih (fa + 1)
        | ok d =>
          cases hx : extract_skins d with
          | error e =>
            cases e with
            | valueError => simpa [parseLoop, h, hx] using ih (fa + 1)
            | keyError => simp [parseLoop, h, hx]
            | typeError => simp [parseLoop, h, hx]
            | attributeError => simp [parseLoop, h, hx]
          | ok skins =>
            cases hp : process_items patch validCodes skins with
            | error e => simp [parseLoop, h, hx, hp]
            | ok pack => simp [parseLoop, h, hx, hp]
    · simp [parseLoop_exhausted patch validCodes m fa _ h]

/-- Loop invariant: a run that ends in success is unchanged by extending the
supply of fetch results — the loop makes no further attempts. -/
theorem parseLoop_success_stable (patch : String → String)
    (validCodes : List Int) (m : Int) (trace ext : List FetchResult) :
    ∀ fa : Int, (parseLoop patch validCodes m fa trace).outcome = .success →
    parseLoop patch validCodes m fa (trace ++ ext) =
      parseLoop patch validCodes m fa trace := by
  induction trace with
  | nil =>
    intro fa h
    by_cases hm : fa ≤ m <;> simp [parseLoop, hm] at h
  | cons fetch rest ih =>
    intro fa h
    by_cases hm : fa ≤ m
    · cases fetch with
      | noContent =>
        have h' : (parseLoop patch validCodes m (fa + 1) rest).outcome = .success := by
          simpa [parseLoop, hm] using h
        simp [parseLoop, hm, ih (fa + 1) h']
      | page nd =>
        cases nd with
        | error u =>
          have h' : (parseLoop patch validCodes m (fa + 1) rest).outcome = .success := by
            simpa [parseLoop, hm] using h
          simp [parseLoop, hm, ih (fa + 1) h']
        | ok d =>
          cases hx : extract_skins d with
          | error e =>
            cases e with
            | valueError =>
              have h' : (parseLoop patch validCodes m (fa + 1) rest).outcome
                  = .success := by
                simpa [parseLoop, hm, hx] using h
              simp [parseLoop, hm, hx, ih (fa + 1) h']
            | keyError => simp [parseLoop, hm, hx] at h
            | typeError => simp [parseLoop, hm, hx] at h
            | attributeError => simp [parseLoop, hm, hx] at h
          | ok skins =>
            cases hp : process_items patch validCodes skins with
            | error e => simp [parseLoop, hm, hx, hp] at h
            | ok pack => simp [parseLoop, hm, hx, hp]
    · rw [parseLoop_exhausted patch validCodes m fa _ hm] at h
      exact absurd h (by simp)

/-- C1: per invocation of `parse`, the sink's `put` happens exactly once
exactly on the success outcome, never on the terminal exhaustion failure,
never more than once; and after one successful batch emission the loop makes
no further attempts — the run is unchanged by any further fetch results. -/
theorem csmoney_sink_put_at_most_once (patch : String → String)
    (validCodes : List Int) (trace : List FetchResult) (max_attempts : Int) :
    ((parse patch validCodes trace max_attempts).outcome = .success ↔
      (parse patch validCodes trace max_attempts).puts.length = 1) ∧
    (parse patch validCodes trace max_attempts).puts.length ≤ 1 ∧
    ((parse patch validCodes trace max_attempts).outcome = .maxAttemptsReached →
      (parse patch validCodes trace max_attempts).puts = []) ∧
    (∀ ext, (parse patch validCodes trace max_attempts).outcome = .success →
      parse patch validCodes (trace ++ ext) max_attempts =
        parse patch validCodes trace max_attempts) := by
  obtain ⟨h1, h2, h3⟩ := parseLoop_sink patch validCodes max_attempts trace 0
  refine ⟨h1, h2, ?_, ?_⟩
  · intro hout
    have hout' : (parseLoop patch validCodes max_attempts 0 trace).outcome
        = .maxAttemptsReached := hout
    exact h3 (by simp [hout'])
  · intro ext hs
    exact parseLoop_success_stable patch validCodes max_attempts trace ext 0 hs

/-- Extraction over the fixed wrapper reaches exactly the embedded list. -/
theorem extract_skins_wrapSkins (skins : List Json) :
    extract_skins (wrapSkins skins) = .ok skins := rfl

/-- C6: a page whose embedded structure is missing one of the four nested keys
on the fixed path (props, pageProps, botInitData, skinsInfo) makes extraction
report the uniform ValueError, which the orchestrator counts as one failed
attempt and then proceeds to the next attempt instead of raising; and a skins
value that is present but not a sequence extracts to the empty list without
failing. -/
theorem csmoney_extract_missing_key :
    (∀ f : List (String × Json), f.lookup "props" = none →
        extract_skins (.obj f) = .error .valueError) ∧
    (∀ (f g : List (String × Json)), f.lookup "props" = some (.obj g) →
        g.lookup "pageProps" = none →
        extract_skins (.obj f) = .error .valueError) ∧
    (∀ (f g h : List (String × Json)), f.lookup "props" = some (.obj g) →
        g.lookup "pageProps" = some (.obj h) →
        h.lookup "botInitData" = none →
        extract_skins (.obj f) = .error .valueError) ∧
    (∀ (f g h k : List (String × Json)), f.lookup "props" = some (.obj g) →
        g.lookup "pageProps" = some (.obj h) →
        h.lookup "botInitData" = some (.obj k) →
        k.lookup "skinsInfo" = none →
        extract_skins (.obj f) = .error .valueError) ∧
    (∀ (f g h k si : List (String × Json)) (v : Json),
        f.lookup "props" = some (.obj g) →
        g.lookup "pageProps" = some (.obj h) →
        h.lookup "botInitData" = some (.obj k) →
        k.lookup "skinsInfo" = some (.obj si) →
        si.lookup "skins" = some v → (∀ xs, v ≠ .arr xs) →
        extract_skins (.obj f) = .ok []) ∧
    (∀ (patch : String → String) (validCodes : List Int) (m fa : Int)
        (d : Json) (rest : List FetchResult),
        extract_skins d = .error .valueError → fa ≤ m →
        parseLoop patch validCodes m fa (.page (.ok d) :: rest) =
          { puts := (parseLoop patch validCodes m (fa + 1) rest).puts,
            attempts := (parseLoop patch validCodes m (fa + 1) rest).attempts + 1,
            outcome := (parseLoop patch validCodes m (fa + 1) rest).outcome }) := by
  refine ⟨?_, ?_, ?_, ?_, ?_, ?_⟩
  · intro f h1
    simp [extract_skins, skins_path, pyGetItem, h1]
  · intro f g h1 h2
    simp [extract_skins, skins_path, pyGetItem, h1, h2]
  · intro f g h h1 h2 h3
    simp [extract_skins, skins_path, pyGetItem, h1, h2, h3]
  · intro f g h k h1 h2 h3 h4
    simp [extract_skins, skins_path, pyGetItem, h1, h2, h3, h4]
  · intro f g h k si v h1 h2 h3 h4 h5 hv
    simp only [extract_skins, skins_path, pyGetItem, pyGet, h1, h2, h3, h4, h5]
    cases v with
    | arr xs => exact absurd rfl (hv xs)
    | null => rfl
    | bool b => rfl
    | int n => rfl
    | float q => rfl
    | str s => rfl
    | obj fs => rfl
  · intro patch validCodes m fa d rest hx hm
    simp [parseLoop, hm, hx]

/-- On the concrete well-formed record only the category decode can fail, and
an invalid code makes it fail with ValueError. -/
theorem create_items_sampleRecord (patch : String → String)
    (validCodes : List Int) (c : Int) (hc : c ∉ validCodes) :
    create_items patch validCodes (sampleRecord c) = .error .valueError := by
  simp [create_items, sampleRecord, pyContainsKey, pyGetItem, pyGet,
    overpayFloat, unlockTimestamp, csmoney_unix_to_datetime, categoryDecode,
    List.lookup, hc]

/-- C4: a raw record whose category code is outside the closed enumeration
makes transformation raise the mapping ValueError; the orchestrator's
extraction guard does not catch it, so the whole parse ends with that hard
error after the one attempt — no sink put, no further attempt whatever
fetch results would follow — and the error is distinguishable from the
exhaustion signal. -/
theorem csmoney_invalid_category_hard_error (patch : String → String)
    (validCodes : List Int) (c : Int) (max_attempts : Int)
    (rest : List FetchResult) (hc : c ∉ validCodes) (hm : 0 ≤ max_attempts) :
    create_items patch validCodes (sampleRecord c) = .error .valueError ∧
    parse patch validCodes (.page (.ok (wrapSkins [sampleRecord c])) :: rest)
        max_attempts = ⟨[], 1, .pyError .valueError⟩ ∧
    (ParseOutcome.pyError .valueError ≠ ParseOutcome.maxAttemptsReached) := by
  have hci := create_items_sampleRecord patch validCodes c hc
  have hpi : process_items patch validCodes [sampleRecord c]
      = .error .valueError := by
    simp [process_items, mapExcept, hci]
  refine ⟨hci, ?_, by simp⟩
  simp [parse, parseLoop, hm, extract_skins_wrapSkins, hpi]

/-- C4 witness: code 99 against the concrete enumeration containing only 3,
at the default attempt bound, with no further fetches supplied. -/
theorem csmoney_invalid_category_witness :
    create_items (fun s => s) [3] (sampleRecord 99) = .error .valueError ∧
    parse (fun s => s) [3] [.page (.ok (wrapSkins [sampleRecord 99]))] 300
      = ⟨[], 1, .pyError .valueError⟩ ∧
    (ParseOutcome.pyError .valueError ≠ ParseOutcome.maxAttemptsReached) :=
  csmoney_invalid_category_hard_error (fun s => s) [3] 99 300 []
    (by norm_num) (by norm_num)

/-- On the concrete grouped record the sibling's mandatory `tradeLock`
subscript raises KeyError. -/
theorem create_items_sampleStack (patch : String → String)
    (validCodes : List Int) (c : Int) (hc : c ∈ validCodes) :
    create_items patch validCodes (sampleStackRecordNoLock c)
      = .error .keyError := by
  simp [create_items, sampleStackRecordNoLock, pyContainsKey, pyGetItem, pyGet,
    overpayFloat, unlockTimestamp, csmoney_unix_to_datetime, categoryDecode,
    mapExcept, create_stack_item, List.lookup, hc]

/-- C10: in a grouped record, the lock field is optional on the parent but
mandatory on each sibling sub-record: a sibling lacking `tradeLock` makes the
transformer raise KeyError instead of producing a sibling with no timestamp,
and the orchestrator's ValueError guard does not catch it, so it escapes
parse as a hard failure with no sink invocation — while the same record
without its stack keys (parent still lockless) transforms fine into one item
with no timestamp. -/
theorem csmoney_stack_lock_mandatory (patch : String → String)
    (validCodes : List Int) (c : Int) (max_attempts : Int)
    (rest : List FetchResult) (hc : c ∈ validCodes) (hm : 0 ≤ max_attempts) :
    create_items patch validCodes (sampleStackRecordNoLock c)
      = .error .keyError ∧
    parse patch validCodes
        (.page (.ok (wrapSkins [sampleStackRecordNoLock c])) :: rest)
        max_attempts = ⟨[], 1, .pyError .keyError⟩ ∧
    (∃ l, create_items patch validCodes (sampleFlatRecordNoLock c) = .ok l ∧
      l.length = 1 ∧ ∀ it ∈ l, it.unlock_timestamp = none) := by
  have hci := create_items_sampleStack patch validCodes c hc
  have hpi : process_items patch validCodes [sampleStackRecordNoLock c]
      = .error .keyError := by
    simp [process_items, mapExcept, hci]
  refine ⟨hci, ?_, ?_⟩
  · simp [parse, parseLoop, hm, extract_skins_wrapSkins, hpi]
  · refine ⟨[CsmoneyItem.mk (patch "M9 Bayonet | Doppler (Factory New)")
        (.float (115928 / 10)) "24899230485" (.int 15840) c none none none],
      ?_, by simp, by simp⟩
    simp [create_items, sampleFlatRecordNoLock, pyContainsKey, pyGetItem, pyGet,
      overpayFloat, unlockTimestamp, csmoney_unix_to_datetime, categoryDecode,
      pyStr, List.lookup, hc]
    rfl

/-- C10 witness: the concrete grouped record at category code 3 against the
enumeration containing 3. -/
theorem csmoney_stack_lock_mandatory_witness :
    create_items (fun s => s) [3] (sampleStackRecordNoLock 3)
      = .error .keyError ∧
    parse (fun s => s) [3]
        [.page (.ok (wrapSkins [sampleStackRecordNoLock 3]))] 300
      = ⟨[], 1, .pyError .keyError⟩ ∧
    (∃ l, create_items (fun s => s) [3] (sampleFlatRecordNoLock 3) = .ok l ∧
      l.length = 1 ∧ ∀ it ∈ l, it.unlock_timestamp = none) :=
  csmoney_stack_lock_mandatory (fun s => s) [3] 3 300 []
    (by norm_num) (by norm_num)

/-- One sibling sub-record builds exactly the spec's sibling item. -/
theorem create_stack_item_spec (name : String) (price name_id : Json)
    (type_code : Int) (s : StackFields) :
    create_stack_item name price name_id type_code (stackFieldsJson s)
      = .ok (specSibling name price name_id type_code s) := by
  rcases s with ⟨sid, wear, lock⟩
  cases wear with
  | none =>
    cases lock with
    | none =>
      simp [create_stack_item, stackFieldsJson, specSibling, pyGetItem, pyGet,
        csmoney_unix_to_datetime, pyTruthy, pyStr, List.lookup]
    | some n =>
      by_cases h0 : n = 0 <;>
        simp [create_stack_item, stackFieldsJson, specSibling, pyGetItem, pyGet,
          csmoney_unix_to_datetime, pyTruthy, pyStr, List.lookup, h0]
  | some w =>
    cases lock with
    | none =>
      simp [create_stack_item, stackFieldsJson, specSibling, pyGetItem, pyGet,
        csmoney_unix_to_datetime, pyTruthy, pyStr, List.lookup]
    | some n =>
      by_cases h0 : n = 0 <;>
        simp [create_stack_item, stackFieldsJson, specSibling, pyGetItem, pyGet,
          csmoney_unix_to_datetime, pyTruthy, pyStr, List.lookup, h0]

/-- The sibling loop over a list of sub-records builds the spec's siblings in
order. -/
theorem mapExcept_stackFields (name : String) (price name_id : Json)
    (type_code : Int) (subs : List StackFields) :
    mapExcept (create_stack_item name price name_id type_code)
        (subs.map stackFieldsJson)
      = .ok (subs.map (specSibling name price name_id type_code)) := by
  induction subs with
  | nil => rfl
  | cons s rest ih =>
    simp [mapExcept, create_stack_item_spec, ih]

/-- C2: a grouped raw record (all three stack keys present) with N sibling
sub-records transforms into exactly N + 1 domain items: the head represents
the parent state and is the only item that may carry the overpay metric, and
each sibling takes its wear value and lock timestamp from its own sub-record
while sharing the parent's name, price, template identifier and category. -/
theorem csmoney_stack_expansion (patch : String → String)
    (validCodes : List Int) (fields : List (String × Json)) (raw_name : String)
    (price asset_val name_id type_val : Json) (type_code : Int)
    (overpay_val float_val : Option Json) (unlock : Option PyDatetime)
    (subs : List StackFields)
    (hname : fields.lookup "fullName" = some (.str raw_name))
    (hprice : fields.lookup "price" = some price)
    (hasset : fields.lookup "assetId" = some asset_val)
    (hnameid : fields.lookup "nameId" = some name_id)
    (htype : fields.lookup "type" = some type_val)
    (hdecode : categoryDecode validCodes type_val = .ok type_code)
    (hover : overpayFloat (.obj fields) = .ok overpay_val)
    (hfloat : pyGet (.obj fields) "float" = .ok float_val)
    (hunlock : unlockTimestamp (.obj fields) = .ok unlock)
    (hss : (fields.lookup "stackSize").isSome = true)
    (hsi : (fields.lookup "stackId").isSome = true)
    (hstack : fields.lookup "stackItems"
      = some (.arr (subs.map stackFieldsJson))) :
    create_items patch validCodes (.obj fields) =
      .ok ({ name := patch raw_name, price := price,
             asset_id := pyStr asset_val, name_id := name_id,
             type_ := type_code, float_ := float_val,
             unlock_timestamp := unlock, overpay_float := overpay_val }
        :: subs.map (specSibling (patch raw_name) price name_id type_code)) ∧
    (∀ out, create_items patch validCodes (.obj fields) = .ok out →
      out.length = subs.length + 1) := by
  have hmain : create_items patch validCodes (.obj fields) =
      .ok ({ name := patch raw_name, price := price,
             asset_id := pyStr asset_val, name_id := name_id,
             type_ := type_code, float_ := float_val,
             unlock_timestamp := unlock, overpay_float := overpay_val }
        :: subs.map (specSibling (patch raw_name) price name_id type_code)) := by
    simp [create_items, pyContainsKey, pyGetItem, hname, hprice, hasset,
      hnameid, htype, hdecode, hover, hfloat, hunlock, hss, hsi, hstack,
      mapExcept_stackFields]
  refine ⟨hmain, ?_⟩
  intro out hout
  rw [hmain] at hout
  cases hout
  simp

/-- C2 witness: a concrete grouped record with one sibling sub-record. -/
theorem csmoney_stack_expansion_witness :
    create_items (fun s => s) [13]
        (.obj [("fullName", .str "Sport Gloves | Vice (Factory New)"),
               ("price", .float (357187 / 10)), ("assetId", .int 24491496626),
               ("nameId", .int 29570), ("type", .int 13),
               ("stackSize", .int 2), ("stackId", .int 7),
               ("stackItems", .arr (([⟨24571330159, some "0.067453943192958",
                  some 1645430400000⟩] : List StackFields).map stackFieldsJson))]) =
      .ok ({ name := "Sport Gloves | Vice (Factory New)",
             price := .float (357187 / 10),
             asset_id := pyStr (.int 24491496626), name_id := .int 29570,
             type_ := 13, float_ := none, unlock_timestamp := none,
             overpay_float := none }
        :: ([⟨24571330159, some "0.067453943192958", some 1645430400000⟩]
              : List StackFields).map
             (specSibling "Sport Gloves | Vice (Factory New)"
               (.float (357187 / 10)) (.int 29570) 13)) :=
  (csmoney_stack_expansion (fun s => s) [13]
    [("fullName", .str "Sport Gloves | Vice (Factory New)"),
     ("price", .float (357187 / 10)), ("assetId", .int 24491496626),
     ("nameId", .int 29570), ("type", .int 13),
     ("stackSize", .int 2), ("stackId", .int 7),
     ("stackItems", .arr (([⟨24571330159, some "0.067453943192958",
        some 1645430400000⟩] : List StackFields).map stackFieldsJson))]
    "Sport Gloves | Vice (Factory New)" (.float (357187 / 10))
    (.int 24491496626) (.int 29570) (.int 13) 13 none none none
    [⟨24571330159, some "0.067453943192958", some 1645430400000⟩]
    rfl rfl rfl rfl rfl rfl rfl rfl rfl rfl rfl rfl).1

/-- `hasPrefixSeq` decides "starts with". -/
theorem hasPrefixSeq_iff (needle : List Char) : ∀ hay : List Char,
    hasPrefixSeq needle hay = true ↔ ∃ t, hay = needle ++ t := by
  induction needle with
  | nil => intro hay; simp [hasPrefixSeq]
  | cons n ns ih =>
    intro hay
    cases hay with
    | nil => simp [hasPrefixSeq]
    | cons h hs =>
      simp only [hasPrefixSeq, Bool.and_eq_true, beq_iff_eq, ih,
        List.cons_append, List.cons.injEq]
      constructor
      · rintro ⟨rfl, t, rfl⟩
        exact ⟨t, rfl, rfl⟩
      · rintro ⟨t, rfl, rfl⟩
        exact ⟨rfl, t, rfl⟩

/-- `hasSubSeq` decides "contains a contiguous run". -/
theorem hasSubSeq_iff (needle : List Char) : ∀ hay : List Char,
    hasSubSeq needle hay = true ↔ ∃ u v, hay = u ++ needle ++ v := by
  intro hay
  induction hay with
  | nil =>
    simp only [hasSubSeq, List.isEmpty_iff]
    constructor
    · rintro rfl
      exact ⟨[], [], rfl⟩
    · rintro ⟨u, v, huv⟩
      have hlen := congrArg List.length huv
      simp only [List.length_nil, List.length_append] at hlen
      have : needle.length = 0 := by omega
      exact List.length_eq_zero.mp this
  | cons h hs ih =>
    simp only [hasSubSeq, Bool.or_eq_true, hasPrefixSeq_iff, ih]
    constructor
    · rintro (⟨t, ht⟩ | ⟨u, v, huv⟩)
      · exact ⟨[], t, by simpa using ht⟩
      · exact ⟨h :: u, v, by simp [huv]⟩
    · rintro ⟨u, v, huv⟩
      cases u with
      | nil =>
        exact Or.inl ⟨v, by simpa using huv⟩
      | cons a u' =>
        simp only [List.cons_append, List.cons.injEq, List.append_assoc] at huv
        exact Or.inr ⟨u', v, by simp [huv.2]⟩

/-- Decomposing a contiguous run of a mapped list into a run of the
original. -/
theorem map_run_decomp {f : Char → Char} {l u k v : List Char}
    (h : l.map f = u ++ k ++ v) :
    ∃ u' t v', l = u' ++ t ++ v' ∧ t.map f = k := by
  refine ⟨l.take u.length, (l.drop u.length).take k.length,
    (l.drop u.length).drop k.length, ?_, ?_⟩
  · rw [List.append_assoc, List.take_append_drop, List.take_append_drop]
  · rw [List.map_take, List.map_drop, h, List.append_assoc,
      List.drop_left, List.take_left]

/-- C9: the Challenge Classifier — a total Bool-valued function — flags a
text exactly when some contiguous run of it is, after lowercasing, one of the
fixed anti-bot markers: any letter casing of a marker is flagged, and a text
containing no casing variant of any marker never is. -/
theorem csmoney_challenge_iff_marker (html : List Char) :
    is_cloudflare_challenge html = true ↔
      ∃ t u v, html = u ++ t ++ v ∧ t.map Char.toLower ∈ cloudflareKeywords := by
  unfold is_cloudflare_challenge
  rw [List.any_eq_true]
  constructor
  · rintro ⟨k, hk, hsub⟩
    obtain ⟨u, v, huv⟩ := (hasSubSeq_iff k _).1 hsub
    obtain ⟨u', t, v', hl, ht⟩ := map_run_decomp huv
    exact ⟨t, u', v', hl, ht ▸ hk⟩
  · rintro ⟨t, u, v, rfl, hmem⟩
    refine ⟨t.map Char.toLower, hmem, ?_⟩
    rw [hasSubSeq_iff]
    exact ⟨u.map Char.toLower, v.map Char.toLower, by simp⟩

end Csmoney
